import Mathlib

/-!
Verification development for `conduct/util/__init__.py`.

The file shallowly embeds the stream-multiplexing `systemCall`, the
chroot executor `chrootedSystemCall`, the `mount`/`umount` helpers and
`ensureDirectory`.  Byte streams are `List Char`, the child process is a
schedule of data chunks per readiness round together with the round at
which `proc.poll()` first reports an exit status, and the privileged
layer is parameterised by an `OS` assigning a child-process behaviour to
every issued command line.
-/

set_option autoImplicit false

namespace Conduct

/-- Python's `buf.partition(chr 10)` as used in `pollOutput`: `some (line, rest)`
splits the buffer at the first newline (the newline itself is dropped), `none`
means the buffer holds no newline. -/
def splitFirstNewline : List Char → Option (List Char × List Char)
  | [] => none
  | c :: cs =>
    if c = '\n' then some ([], cs)
    else
      match splitFirstNewline cs with
      | some (l, r) => some (c :: l, r)
      | none => none

/-- The flush loop of `pollOutput` (`while` newline `in buf: line, _, buf = buf.partition(...)`):
all newline-terminated segments of the buffer in order, and the remaining
newline-free tail that stays buffered.  `flushLines_eq_splitLoop` below certifies
that this structural definition is exactly the repeated-partition loop. -/
def flushLines : List Char → List (List Char) × List Char
  | [] => ([], [])
  | c :: cs =>
    let p := flushLines cs
    if c = '\n' then ([] :: p.1, p.2)
    else
      match p.1 with
      | [] => ([], c :: p.2)
      | l :: ls => ((c :: l) :: ls, p.2)

/-- The local `removeChars` variable of `pollOutput` in the source; it is
assigned and never used (no carriage-return stripping ever happens). -/
def removeChars : List Char := ['\r', '\n']

/-- The mutable state of one `systemCall` invocation: the collected stdout
lines `out`, the two line buffers, and the records sent to the debug and
warning sinks of the logger. -/
structure SysState where
  out : List (List Char)
  outBuf : List Char
  errBuf : List Char
  logDebug : List (List Char)
  logWarn : List (List Char)
deriving DecidableEq

/-- The data a readiness round delivers: the chunks successively returned by
`proc.stdout.read(100)` and `proc.stderr.read(100)` (empty lists model a
descriptor that was not ready). -/
structure Round where
  outChunks : List (List Char)
  errChunks : List (List Char)

/-- A child process behaviour: the data available at the i-th `pollOutput`
call, the first iteration index at which `proc.poll()` reports an exit
status (process exit is permanent, so the report holds from there on), and
the exit code. -/
structure Child where
  data : Nat → Round
  exitRound : Nat
  returncode : Int

/-- One pass of the stdout read loop body in `pollOutput`:
`outBuf[0] += tmp` followed by the newline flush loop, each complete line
being logged at debug level and appended, with its newline restored, to `out`. -/
def processOutChunk (s : SysState) (tmp : List Char) : SysState :=
  let p := flushLines (s.outBuf ++ tmp)
  { s with outBuf := p.2,
           logDebug := s.logDebug ++ p.1,
           out := s.out ++ p.1.map (fun l => l ++ ['\n']) }

/-- One pass of the stderr read loop body in `pollOutput`: as for stdout but
complete lines go to the warning sink only and are never added to `out`. -/
def processErrChunk (s : SysState) (tmp : List Char) : SysState :=
  let p := flushLines (s.errBuf ++ tmp)
  { s with errBuf := p.2, logWarn := s.logWarn ++ p.1 }

/-- One `pollOutput` call: drain the ready stdout chunks, then the ready
stderr chunks. -/
def pollRound (s : SysState) (r : Round) : SysState :=
  r.errChunks.foldl processErrChunk (r.outChunks.foldl processOutChunk s)

/-- The `while True` drain loop of `systemCall`: call `pollOutput`, then break
as soon as `proc.poll()` is not `None`.  The fuel argument is initialised by
`drainLoop` to the exact number of iterations the exit check permits and is
only a termination device: when it reaches zero the exit check necessarily
succeeds, and the returned index is the next unread round. -/
def drainLoopAux (child : Child) : Nat → Nat → SysState → SysState × Nat
  | 0, i, s => (pollRound s (child.data i), i + 1)
  | fuel + 1, i, s =>
    let s1 := pollRound s (child.data i)
    if child.exitRound ≤ i then (s1, i + 1)
    else drainLoopAux child fuel (i + 1) s1

/-- The drain loop started at iteration `i`. -/
def drainLoop (child : Child) (i : Nat) (s : SysState) : SysState × Nat :=
  drainLoopAux child (child.exitRound + 1 - i) i s

/-- The initial debug record `'System call [sh:%s]: %s' % (sh, cmd)` emitted
before the drain loop starts. -/
def sysCallHeader (cmd : String) (sh : Bool) : List Char :=
  ("System call [sh:" ++ (if sh then "True" else "False") ++ "]: " ++ cmd).data

/-- The state at the start of `systemCall`: empty output, empty buffers, the
header already logged. -/
def initState (cmd : String) (sh : Bool) : SysState :=
  { out := [], outBuf := [], errBuf := [], logDebug := [sysCallHeader cmd sh], logWarn := [] }

/-- The state after the drain loop plus the single post-loop `pollOutput`
("poll once after the process ended to collect all the missing output"). -/
def sysCallState (cmd : String) (sh : Bool) (child : Child) : SysState :=
  let r := drainLoop child 0 (initState cmd sh)
  pollRound r.1 (child.data r.2)

/-- `''.join(out)`: the captured output `systemCall` returns or embeds in its
error. -/
def capturedOutput (cmd : String) (sh : Bool) (child : Child) : List Char :=
  (sysCallState cmd sh child).out.flatten

/-- The error raised by `systemCall`:
`RuntimeError(CalledProcessError(returncode, cmd, ''.join(out)))`.  All errors
this module raises are of this shape (mount and umount failures are the
failures of their `mount ...`/`umount ...` commands). -/
inductive CErr where
  | processFailure (returncode : Int) (cmd : String) (output : List Char)
deriving DecidableEq

/-- `systemCall`: run the drain loop to completion, then raise on a non-zero
exit status and otherwise return the joined output. -/
def systemCall (cmd : String) (sh : Bool) (child : Child) : Except CErr (List Char) :=
  if child.returncode ≠ 0 then
    .error (.processFailure child.returncode cmd (capturedOutput cmd sh child))
  else .ok (capturedOutput cmd sh child)

/-- The rounds a `systemCall` invocation processes: rounds `0` to
`exitRound + 1` inclusive (proved in the drain-loop characterisation). -/
def processedRounds (child : Child) : List Round :=
  (List.range (child.exitRound + 2)).map child.data

/-- All stdout bytes delivered by a list of rounds, in arrival order. -/
def outData (rounds : List Round) : List Char :=
  (rounds.map (fun r => r.outChunks.flatten)).flatten

/-- All stderr bytes delivered by a list of rounds, in arrival order. -/
def errData (rounds : List Round) : List Char :=
  (rounds.map (fun r => r.errChunks.flatten)).flatten

/-- Everything the child writes to stdout during the processed rounds. -/
def stdoutData (child : Child) : List Char := outData (processedRounds child)

/-- Everything the child writes to stderr during the processed rounds. -/
def stderrData (child : Child) : List Char := errData (processedRounds child)

/-- The complete (newline-terminated) stdout lines of the whole stream. -/
def stdoutLines (child : Child) : List (List Char) := (flushLines (stdoutData child)).1

/-- The complete (newline-terminated) stderr lines of the whole stream. -/
def stderrLines (child : Child) : List (List Char) := (flushLines (stderrData child)).1

/-- Observable actions of the chroot executor: a directory-ensure call, a
completed mount, a completed unmount, and the invocation of the inner
chrooted command. -/
inductive Event where
  | ensureDir (p : String)
  | mountEv (dev mountpoint flags : String)
  | umountEv (mountpoint flags : String)
  | execEv (cmd : String) (sh : Bool)
deriving DecidableEq

/-- The operating system as the executor sees it: a child-process behaviour
for every spawned command line, and whether `<root>/dev/pts` exists at
unmount time. -/
structure OS where
  procFor : String → Bool → Child
  devptsExists : Bool

/-- `os.path.join` for one relative component, as used on the chroot
mount-point paths. -/
def pathJoin (a b : String) : String :=
  if a.data.getLast? = some '/' then a ++ b else a ++ "/" ++ b

/-- `'mount %s %s %s' % (flags, dev, mountpoint)`. -/
def mountCmdStr (flags dev mountpoint : String) : String :=
  "mount " ++ flags ++ " " ++ dev ++ " " ++ mountpoint

/-- `'umount %s %s' % (flags, mountpoint)`. -/
def umountCmdStr (flags mountpoint : String) : String :=
  "umount " ++ flags ++ " " ++ mountpoint

/-- `'chroot %s %s' % (chrootDir, cmd)`. -/
def chrootCmd (chrootDir cmd : String) : String :=
  "chroot " ++ chrootDir ++ " " ++ cmd

/-- `mount(dev, mountpoint, flags)`: `ensureDirectory(mountpoint)` followed by
`systemCall('mount %s %s %s' % (flags, dev, mountpoint))` (shell mode, the
default).  The completed-mount event is recorded only when the mount command
succeeds; on failure the command's error propagates. -/
def mount (os : OS) (dev mountpoint flags : String) : Except CErr (List Char) × List Event :=
  match systemCall (mountCmdStr flags dev mountpoint) true
      (os.procFor (mountCmdStr flags dev mountpoint) true) with
  | .ok o => (.ok o, [.ensureDir mountpoint, .mountEv dev mountpoint flags])
  | .error e => (.error e, [.ensureDir mountpoint])

/-- `umount(mountpoint, flags)`: `systemCall('umount %s %s' % (flags, mountpoint))`.
The completed-unmount event is recorded only when the command succeeds. -/
def umount (os : OS) (mountpoint flags : String) : Except CErr (List Char) × List Event :=
  match systemCall (umountCmdStr flags mountpoint) true
      (os.procFor (umountCmdStr flags mountpoint) true) with
  | .ok o => (.ok o, [.umountEv mountpoint flags])
  | .error e => (.error e, [])

/-- The mounting block of `chrootedSystemCall`: mount `proc`, then rbind
`/sys`, then rbind `/dev`, aborting at the first failure (an exception in a
plain statement sequence skips the rest). -/
def mountPhase (os : OS) (procMp sysMp devMp : String) : Except CErr Unit × List Event :=
  match mount os "proc" procMp "-t proc" with
  | (.error e, evs) => (.error e, evs)
  | (.ok _, evs1) =>
    match mount os "/sys" sysMp "--rbind" with
    | (.error e, evs) => (.error e, evs1 ++ evs)
    | (.ok _, evs2) =>
      match mount os "/dev" devMp "--rbind" with
      | (.error e, evs) => (.error e, evs1 ++ evs2 ++ evs)
      | (.ok _, evs3) => (.ok (), evs1 ++ evs2 ++ evs3)

/-- The `finally` block of `chrootedSystemCall`: unmount `<root>/dev/pts` only
if that path exists, then `<root>/dev`, `<root>/sys`, `<root>/proc`, each with
`-lf`; an unmount failure raises and skips the remaining unmounts. -/
def umountPhase (os : OS) (devptsMp devMp sysMp procMp : String) :
    Except CErr Unit × List Event :=
  match (if os.devptsExists then umount os devptsMp "-lf" else (.ok [], [])) with
  | (.error e, evs) => (.error e, evs)
  | (.ok _, evs0) =>
    match umount os devMp "-lf" with
    | (.error e, evs) => (.error e, evs0 ++ evs)
    | (.ok _, evs1) =>
      match umount os sysMp "-lf" with
      | (.error e, evs) => (.error e, evs0 ++ evs1 ++ evs)
      | (.ok _, evs2) =>
        match umount os procMp "-lf" with
        | (.error e, evs) => (.error e, evs0 ++ evs1 ++ evs2 ++ evs)
        | (.ok _, evs3) => (.ok (), evs0 ++ evs1 ++ evs2 ++ evs3)

/-- `chrootedSystemCall(chrootDir, cmd, sh, mountPseudoFs)`.  The mounts
happen before the `try:` block, so a mount failure propagates directly and
the `finally` block never runs.  Once the `try` body is entered, the inner
`systemCall` runs on `'chroot %s %s' % (chrootDir, cmd)` with the caller's
`sh` flag, and the `finally` block always runs; an exception raised inside
`finally` replaces the pending result or exception of the body (Python
`try`/`finally` semantics). -/
def chrootedSystemCall (os : OS) (chrootDir cmd : String) (sh mountPseudoFs : Bool) :
    Except CErr (List Char) × List Event :=
  let procMp := pathJoin chrootDir "proc"
  let sysMp := pathJoin chrootDir "sys"
  let devMp := pathJoin chrootDir "dev"
  let devptsMp := pathJoin (pathJoin chrootDir "dev") "pts"
  match (if mountPseudoFs then mountPhase os procMp sysMp devMp else (.ok (), [])) with
  | (.error e, evs) => (.error e, evs)
  | (.ok _, evs) =>
    let innerRes := systemCall (chrootCmd chrootDir cmd) sh
        (os.procFor (chrootCmd chrootDir cmd) sh)
    let u := if mountPseudoFs then umountPhase os devptsMp devMp sysMp procMp else (.ok (), [])
    match u.1 with
    | .error e => (.error e, (evs ++ [.execEv (chrootCmd chrootDir cmd) sh]) ++ u.2)
    | .ok _ => (innerRes, (evs ++ [.execEv (chrootCmd chrootDir cmd) sh]) ++ u.2)

/-- Recogniser for completed-unmount events. -/
def isUmountEv : Event → Bool
  | .umountEv _ _ => true
  | _ => false

/-- Recogniser for inner-command execution events. -/
def isExecEv : Event → Bool
  | .execEv _ _ => true
  | _ => false

/-- A filesystem for `ensureDirectory`: the set of directories that exist,
each a list of path components. -/
structure FS where
  dirs : List (List String)
deriving DecidableEq

/-- The nonempty ancestor chain of a path, shortest first (for `["a","b"]`
this is `[["a"], ["a","b"]]`). -/
def parentChain (p : List String) : List (List String) :=
  (List.range p.length).map (fun k => p.take (k + 1))

/-- The `OSError` raised by `os.makedirs` on an existing leaf directory. -/
inductive OSErr where
  | dirExists
deriving DecidableEq

/-- Modelled from the spec and the Python library contract of `os.makedirs`:
creates the directory and all missing ancestors, and raises `OSError` when
the leaf directory already exists. -/
def makedirs (fs : FS) (p : List String) : Except OSErr FS :=
  if p ∈ fs.dirs then .error .dirExists
  else .ok ⟨fs.dirs ++ (parentChain p).filter (fun q => decide (q ∉ fs.dirs))⟩

/-- `ensureDirectory(dirpath)`: `if not path.isdir(dirpath): os.makedirs(dirpath)`. -/
def ensureDirectory (fs : FS) (dirpath : List String) : Except OSErr FS :=
  if dirpath ∉ fs.dirs then makedirs fs dirpath else .ok fs

/-- A child that produces no output, exits immediately, and returns `rc`. -/
def silentChild (rc : Int) : Child :=
  { data := fun _ => ⟨[], []⟩, exitRound := 0, returncode := rc }

/-- An operating system on which every command succeeds silently and
`<root>/dev/pts` does not exist. -/
def osAllOk : OS := ⟨fun _ _ => silentChild 0, false⟩

/-- An operating system on which the second pseudo-fs mount
(`mount --rbind /sys /r/sys`) fails and everything else succeeds. -/
def osSysMountFails : OS :=
  ⟨fun c _ => if c = "mount --rbind /sys /r/sys" then silentChild 1 else silentChild 0, true⟩

/-- An operating system on which the chrooted command fails with exit code 3
and the first unmount (`umount -lf /r/dev/pts`) fails with exit code 2. -/
def osUmountDevptsFails : OS :=
  ⟨fun c _ =>
      if c = "chroot /r do" then silentChild 3
      else if c = "umount -lf /r/dev/pts" then silentChild 2
      else silentChild 0,
    true⟩

/-- An operating system on which only the chrooted command fails (exit code 5);
all mounts and unmounts succeed and `<root>/dev/pts` exists. -/
def osInnerFails : OS :=
  ⟨fun c _ => if c = "chroot /r do" then silentChild 5 else silentChild 0, true⟩

/-- A child writing `ab`, newline, `c` in round 0 and newline, `xy` in round 1
on stdout (two complete lines `ab` and `c` plus the unterminated tail `xy`),
plus one complete stderr line `er`; exit is reported at round 1. -/
def twoLineChild : Child :=
  { data := fun i =>
      if i = 0 then ⟨[['a', 'b', '\n', 'c']], [['e', 'r', '\n']]⟩
      else if i = 1 then ⟨[['\n', 'x', 'y']], []⟩
      else ⟨[], []⟩,
    exitRound := 1, returncode := 0 }

/-- A child writing the single complete stdout line `hi` and exiting with
code 2. -/
def failChildWithOutput : Child :=
  { data := fun i => if i = 0 then ⟨[['h', 'i', '\n']], []⟩ else ⟨[], []⟩,
    exitRound := 0, returncode := 2 }

/-- A child writing one CRLF-terminated stdout line `a` and one
CRLF-terminated stderr line `b`. -/
def crlfChild : Child :=
  { data := fun i => if i = 0 then ⟨[['a', '\r', '\n']], [['b', '\r', '\n']]⟩ else ⟨[], []⟩,
    exitRound := 0, returncode := 0 }

/-! ### Lemmas on the line-buffer flush loop -/

lemma splitFirstNewline_none (buf : List Char) (h : '\n' ∉ buf) :
    splitFirstNewline buf = none := by
  induction buf with
  | nil => rfl
  | cons c cs ih =>
    by_cases hc : c = '\n'
    · subst hc; exact absurd (List.mem_cons_self _ _) h
    · have hcs : '\n' ∉ cs := fun hm => h (List.mem_cons_of_mem c hm)
      simp [splitFirstNewline, hc, ih hcs]

lemma flush_fst_nil (buf : List Char) (h : (flushLines buf).1 = []) :
    (flushLines buf).2 = buf := by
  induction buf with
  | nil => rfl
  | cons c cs ih =>
    by_cases hc : c = '\n'
    · simp [flushLines, hc] at h
    · rcases hp : (flushLines cs).1 with _ | ⟨l, ls⟩
      · simp [flushLines, hc, hp, ih hp]
      · simp [flushLines, hc, hp] at h

/-- The structural `flushLines` is exactly the repeated-partition loop of the
source: take off the first newline-terminated segment and continue. -/
lemma flushLines_eq_splitLoop (buf : List Char) :
    flushLines buf =
      match splitFirstNewline buf with
      | none => ([], buf)
      | some p => (p.1 :: (flushLines p.2).1, (flushLines p.2).2) := by
  induction buf with
  | nil => rfl
  | cons c cs ih =>
    by_cases hc : c = '\n'
    · subst hc; simp [flushLines, splitFirstNewline]
    · rcases hs : splitFirstNewline cs with _ | ⟨l, r⟩
      · have hcs : flushLines cs = ([], cs) := by rw [ih, hs]
        simp [flushLines, splitFirstNewline, hc, hs, hcs]
      · have hcs : flushLines cs = (l :: (flushLines r).1, (flushLines r).2) := by rw [ih, hs]
        simp [flushLines, splitFirstNewline, hc, hs, hcs]

lemma flush_no_newline (buf : List Char) (h : '\n' ∉ buf) : flushLines buf = ([], buf) := by
  rw [flushLines_eq_splitLoop, splitFirstNewline_none buf h]

lemma newline_notin_flush_snd (buf : List Char) : '\n' ∉ (flushLines buf).2 := by
  induction buf with
  | nil => simp [flushLines]
  | cons c cs ih =>
    by_cases hc : c = '\n'
    · simpa [flushLines, hc] using ih
    · rcases hp : (flushLines cs).1 with _ | ⟨l, ls⟩
      · simp [flushLines, hc, hp]
        exact ⟨fun hh => hc hh.symm, ih⟩
      · simpa [flushLines, hc, hp] using ih

lemma flush_append (xs ys : List Char) :
    flushLines (xs ++ ys) =
      ((flushLines xs).1 ++ (flushLines ((flushLines xs).2 ++ ys)).1,
       (flushLines ((flushLines xs).2 ++ ys)).2) := by
  induction xs with
  | nil => simp [flushLines]
  | cons c cs ih =>
    by_cases hc : c = '\n'
    · simp [flushLines, hc, ih]
    · rcases hp : (flushLines cs).1 with _ | ⟨l, ls⟩
      · have h2 : (flushLines cs).2 = cs := flush_fst_nil cs hp
        simp [flushLines, hc, hp, h2]
      · simp [flushLines, hc, hp, ih]

lemma flush_append_fst (xs ys : List Char) :
    (flushLines (xs ++ ys)).1 =
      (flushLines xs).1 ++ (flushLines ((flushLines xs).2 ++ ys)).1 := by
  rw [flush_append]

lemma flush_append_snd (xs ys : List Char) :
    (flushLines (xs ++ ys)).2 = (flushLines ((flushLines xs).2 ++ ys)).2 := by
  rw [flush_append]

lemma flush_line (l rest : List Char) (h : '\n' ∉ l) :
    flushLines (l ++ '\n' :: rest) = (l :: (flushLines rest).1, (flushLines rest).2) := by
  induction l with
  | nil => simp [flushLines]
  | cons c cl ih =>
    have hc : ¬ c = '\n' := fun hcc => h (by rw [hcc]; exact List.mem_cons_self _ _)
    have hcl : '\n' ∉ cl := fun hm => h (List.mem_cons_of_mem c hm)
    simp [flushLines, hc, ih hcl]

lemma flush_terminated (lines : List (List Char)) (tail0 : List Char)
    (hl : ∀ l ∈ lines, '\n' ∉ l) (ht : '\n' ∉ tail0) :
    flushLines ((lines.map (fun l => l ++ ['\n'])).flatten ++ tail0) = (lines, tail0) := by
  induction lines with
  | nil => simpa using flush_no_newline tail0 ht
  | cons l ls ih =>
    have h1 : '\n' ∉ l := hl l (List.mem_cons_self _ _)
    have h2 : ∀ x ∈ ls, '\n' ∉ x := fun x hx => hl x (List.mem_cons_of_mem _ hx)
    have harr : (((l :: ls).map (fun x => x ++ ['\n'])).flatten ++ tail0)
        = l ++ '\n' :: ((ls.map (fun x => x ++ ['\n'])).flatten ++ tail0) := by
      simp
    rw [harr, flush_line _ _ h1, ih h2]

/-! ### Characterisation of the drain loop -/

lemma foldl_processOutChunk (chunks : List (List Char)) (s : SysState)
    (h : '\n' ∉ s.outBuf) :
    chunks.foldl processOutChunk s =
      { out := s.out ++ ((flushLines (s.outBuf ++ chunks.flatten)).1).map (fun l => l ++ ['\n']),
        outBuf := (flushLines (s.outBuf ++ chunks.flatten)).2,
        errBuf := s.errBuf,
        logDebug := s.logDebug ++ (flushLines (s.outBuf ++ chunks.flatten)).1,
        logWarn := s.logWarn } := by
  induction chunks generalizing s with
  | nil => simp [flush_no_newline _ h]
  | cons a rest ih =>
    have h1 : '\n' ∉ (processOutChunk s a).outBuf := newline_notin_flush_snd (s.outBuf ++ a)
    simp only [List.foldl_cons]
    rw [ih _ h1]
    simp only [processOutChunk, List.flatten_cons, ← List.append_assoc,
      flush_append_fst (s.outBuf ++ a) rest.flatten, flush_append_snd (s.outBuf ++ a) rest.flatten]
    all_goals simp [List.map_append, List.append_assoc]

lemma foldl_processErrChunk (chunks : List (List Char)) (s : SysState)
    (h : '\n' ∉ s.errBuf) :
    chunks.foldl processErrChunk s =
      { out := s.out, outBuf := s.outBuf,
        errBuf := (flushLines (s.errBuf ++ chunks.flatten)).2,
        logDebug := s.logDebug,
        logWarn := s.logWarn ++ (flushLines (s.errBuf ++ chunks.flatten)).1 } := by
  induction chunks generalizing s with
  | nil => simp [flush_no_newline _ h]
  | cons a rest ih =>
    have h1 : '\n' ∉ (processErrChunk s a).errBuf := newline_notin_flush_snd (s.errBuf ++ a)
    simp only [List.foldl_cons]
    rw [ih _ h1]
    simp only [processErrChunk, List.flatten_cons, ← List.append_assoc,
      flush_append_fst (s.errBuf ++ a) rest.flatten, flush_append_snd (s.errBuf ++ a) rest.flatten]

lemma pollRound_eq (s : SysState) (r : Round) (ho : '\n' ∉ s.outBuf) (he : '\n' ∉ s.errBuf) :
    pollRound s r =
      { out := s.out ++ ((flushLines (s.outBuf ++ r.outChunks.flatten)).1).map (fun l => l ++ ['\n']),
        outBuf := (flushLines (s.outBuf ++ r.outChunks.flatten)).2,
        errBuf := (flushLines (s.errBuf ++ r.errChunks.flatten)).2,
        logDebug := s.logDebug ++ (flushLines (s.outBuf ++ r.outChunks.flatten)).1,
        logWarn := s.logWarn ++ (flushLines (s.errBuf ++ r.errChunks.flatten)).1 } := by
  unfold pollRound
  rw [foldl_processOutChunk _ _ ho]
  rw [foldl_processErrChunk]
  exact he

lemma foldl_pollRound (rounds : List Round) (s : SysState)
    (ho : '\n' ∉ s.outBuf) (he : '\n' ∉ s.errBuf) :
    rounds.foldl pollRound s =
      { out := s.out ++ ((flushLines (s.outBuf ++ outData rounds)).1).map (fun l => l ++ ['\n']),
        outBuf := (flushLines (s.outBuf ++ outData rounds)).2,
        errBuf := (flushLines (s.errBuf ++ errData rounds)).2,
        logDebug := s.logDebug ++ (flushLines (s.outBuf ++ outData rounds)).1,
        logWarn := s.logWarn ++ (flushLines (s.errBuf ++ errData rounds)).1 } := by
  induction rounds generalizing s with
  | nil => simp [outData, errData, flush_no_newline _ ho, flush_no_newline _ he]
  | cons r rest ih =>
    simp only [List.foldl_cons]
    rw [pollRound_eq s r ho he]
    rw [ih]
    rotate_left
    · exact newline_notin_flush_snd _
    · exact newline_notin_flush_snd _
    have hod : outData (r :: rest) = r.outChunks.flatten ++ outData rest := by
      simp [outData]
    have hed : errData (r :: rest) = r.errChunks.flatten ++ errData rest := by
      simp [errData]
    simp only [hod, hed, ← List.append_assoc,
      flush_append_fst (s.outBuf ++ r.outChunks.flatten) (outData rest),
      flush_append_snd (s.outBuf ++ r.outChunks.flatten) (outData rest),
      flush_append_fst (s.errBuf ++ r.errChunks.flatten) (errData rest),
      flush_append_snd (s.errBuf ++ r.errChunks.flatten) (errData rest)]
    simp [List.map_append, List.append_assoc]

lemma drainLoopAux_eq (child : Child) :
    ∀ (fuel i : Nat) (s : SysState), fuel = child.exitRound + 1 - i → i ≤ child.exitRound →
      drainLoopAux child fuel i s =
        (((List.range fuel).map (fun k => child.data (i + k))).foldl pollRound s,
          child.exitRound + 1) := by
  intro fuel
  induction fuel with
  | zero => intro i s hf hi; omega
  | succ fuel ih =>
    intro i s hf hi
    by_cases hexit : child.exitRound ≤ i
    · have hie : i = child.exitRound := le_antisymm hi hexit
      have hf0 : fuel = 0 := by omega
      subst hf0
      have h1 : List.range 1 = [0] := rfl
      simp [drainLoopAux, hexit, h1, hie]
    · have h1 : fuel = child.exitRound + 1 - (i + 1) := by omega
      have h2 : i + 1 ≤ child.exitRound := by omega
      have hrec := ih (i + 1) (pollRound s (child.data i)) h1 h2
      simp only [drainLoopAux, hexit, if_false]
      rw [hrec]
      have hrange : ((List.range (fuel + 1)).map (fun k => child.data (i + k))) =
          child.data i :: ((List.range fuel).map (fun k => child.data (i + 1 + k))) := by
        rw [List.range_succ_eq_map, List.map_cons, List.map_map]
        refine congrArg₂ _ (by simp) (List.map_congr_left fun k _ => ?_)
        show child.data (i + (k + 1)) = child.data (i + 1 + k)
        congr 1
        omega
      rw [hrange, List.foldl_cons]

lemma drainLoop_zero (child : Child) (s : SysState) :
    drainLoop child 0 s =
      (((List.range (child.exitRound + 1)).map child.data).foldl pollRound s,
        child.exitRound + 1) := by
  have h := drainLoopAux_eq child (child.exitRound + 1) 0 s (by omega) (by omega)
  simpa [drainLoop] using h

lemma sysCallState_eq_fold (cmd : String) (sh : Bool) (child : Child) :
    sysCallState cmd sh child =
      ((List.range (child.exitRound + 2)).map child.data).foldl pollRound (initState cmd sh) := by
  unfold sysCallState
  rw [drainLoop_zero]
  have hr : List.range (child.exitRound + 2) =
      List.range (child.exitRound + 1) ++ [child.exitRound + 1] :=
    List.range_succ (child.exitRound + 1)
  rw [hr, List.map_append, List.foldl_append]
  simp

/-- Master characterisation of one `systemCall` drain: the final state is
fully determined by the stdout and stderr byte streams of the processed
rounds — stdout's complete lines are logged at debug level and collected
with their newlines, stderr's complete lines are logged at warning level
only, and the newline-free tails stay in the buffers. -/
lemma sysCallState_eq (cmd : String) (sh : Bool) (child : Child) :
    sysCallState cmd sh child =
      { out := (stdoutLines child).map (fun l => l ++ ['\n']),
        outBuf := (flushLines (stdoutData child)).2,
        errBuf := (flushLines (stderrData child)).2,
        logDebug := sysCallHeader cmd sh :: stdoutLines child,
        logWarn := stderrLines child } := by
  rw [sysCallState_eq_fold]
  rw [foldl_pollRound _ _ (by simp [initState]) (by simp [initState])]
  simp [initState, stdoutData, stderrData, stdoutLines, stderrLines, processedRounds,
    outData, errData]

/-! ### Helper lemmas on `systemCall`, `mount`, `umount` and the two phases -/

lemma systemCall_ok (cmd : String) (sh : Bool) (child : Child) (h : child.returncode = 0) :
    systemCall cmd sh child = .ok (capturedOutput cmd sh child) := by
  simp [systemCall, h]

lemma systemCall_fail (cmd : String) (sh : Bool) (child : Child) (h : child.returncode ≠ 0) :
    systemCall cmd sh child =
      .error (.processFailure child.returncode cmd (capturedOutput cmd sh child)) := by
  simp [systemCall, h]

lemma mount_ok (os : OS) (dev mountpoint flags : String)
    (h : (os.procFor (mountCmdStr flags dev mountpoint) true).returncode = 0) :
    mount os dev mountpoint flags =
      (.ok (capturedOutput (mountCmdStr flags dev mountpoint) true
          (os.procFor (mountCmdStr flags dev mountpoint) true)),
        [.ensureDir mountpoint, .mountEv dev mountpoint flags]) := by
  simp [mount, systemCall_ok _ _ _ h]

lemma mount_fail (os : OS) (dev mountpoint flags : String)
    (h : (os.procFor (mountCmdStr flags dev mountpoint) true).returncode ≠ 0) :
    mount os dev mountpoint flags =
      (.error (.processFailure (os.procFor (mountCmdStr flags dev mountpoint) true).returncode
          (mountCmdStr flags dev mountpoint)
          (capturedOutput (mountCmdStr flags dev mountpoint) true
            (os.procFor (mountCmdStr flags dev mountpoint) true))),
        [.ensureDir mountpoint]) := by
  simp [mount, systemCall_fail _ _ _ h]

lemma umount_ok (os : OS) (mountpoint flags : String)
    (h : (os.procFor (umountCmdStr flags mountpoint) true).returncode = 0) :
    umount os mountpoint flags =
      (.ok (capturedOutput (umountCmdStr flags mountpoint) true
          (os.procFor (umountCmdStr flags mountpoint) true)),
        [.umountEv mountpoint flags]) := by
  simp [umount, systemCall_ok _ _ _ h]

lemma umount_fail (os : OS) (mountpoint flags : String)
    (h : (os.procFor (umountCmdStr flags mountpoint) true).returncode ≠ 0) :
    umount os mountpoint flags =
      (.error (.processFailure (os.procFor (umountCmdStr flags mountpoint) true).returncode
          (umountCmdStr flags mountpoint)
          (capturedOutput (umountCmdStr flags mountpoint) true
            (os.procFor (umountCmdStr flags mountpoint) true))),
        []) := by
  simp [umount, systemCall_fail _ _ _ h]

lemma mount_events (os : OS) (dev mountpoint flags : String) :
    (mount os dev mountpoint flags).2 = [.ensureDir mountpoint, .mountEv dev mountpoint flags] ∨
      (mount os dev mountpoint flags).2 = [.ensureDir mountpoint] := by
  unfold mount
  cases systemCall (mountCmdStr flags dev mountpoint) true
      (os.procFor (mountCmdStr flags dev mountpoint) true) with
  | ok o => exact Or.inl rfl
  | error e => exact Or.inr rfl

lemma umount_events (os : OS) (mountpoint flags : String) :
    (umount os mountpoint flags).2 = [.umountEv mountpoint flags] ∨
      (umount os mountpoint flags).2 = [] := by
  unfold umount
  cases systemCall (umountCmdStr flags mountpoint) true
      (os.procFor (umountCmdStr flags mountpoint) true) with
  | ok o => exact Or.inl rfl
  | error e => exact Or.inr rfl

lemma mount_filter_umount (os : OS) (dev mountpoint flags : String) :
    (mount os dev mountpoint flags).2.filter isUmountEv = [] := by
  rcases mount_events os dev mountpoint flags with h | h <;> simp [h, isUmountEv]

lemma mount_filter_exec (os : OS) (dev mountpoint flags : String) :
    (mount os dev mountpoint flags).2.filter isExecEv = [] := by
  rcases mount_events os dev mountpoint flags with h | h <;> simp [h, isExecEv]

lemma umount_filter_exec (os : OS) (mountpoint flags : String) :
    (umount os mountpoint flags).2.filter isExecEv = [] := by
  rcases umount_events os mountpoint flags with h | h <;> simp [h, isExecEv]

lemma mountPhase_filter_umount (os : OS) (procMp sysMp devMp : String) :
    (mountPhase os procMp sysMp devMp).2.filter isUmountEv = [] := by
  unfold mountPhase
  rcases h1 : mount os "proc" procMp "-t proc" with ⟨r1, evs1⟩
  have f1 : evs1.filter isUmountEv = [] := by
    have := mount_filter_umount os "proc" procMp "-t proc"
    rwa [h1] at this
  rcases r1 with e | o1
  · simpa using f1
  rcases h2 : mount os "/sys" sysMp "--rbind" with ⟨r2, evs2⟩
  have f2 : evs2.filter isUmountEv = [] := by
    have := mount_filter_umount os "/sys" sysMp "--rbind"
    rwa [h2] at this
  rcases r2 with e | o2
  · simp [List.filter_append, f1, f2]
  rcases h3 : mount os "/dev" devMp "--rbind" with ⟨r3, evs3⟩
  have f3 : evs3.filter isUmountEv = [] := by
    have := mount_filter_umount os "/dev" devMp "--rbind"
    rwa [h3] at this
  rcases r3 with e | o3 <;> simp [List.filter_append, f1, f2, f3]

lemma mountPhase_filter_exec (os : OS) (procMp sysMp devMp : String) :
    (mountPhase os procMp sysMp devMp).2.filter isExecEv = [] := by
  unfold mountPhase
  rcases h1 : mount os "proc" procMp "-t proc" with ⟨r1, evs1⟩
  have f1 : evs1.filter isExecEv = [] := by
    have := mount_filter_exec os "proc" procMp "-t proc"
    rwa [h1] at this
  rcases r1 with e | o1
  · simpa using f1
  rcases h2 : mount os "/sys" sysMp "--rbind" with ⟨r2, evs2⟩
  have f2 : evs2.filter isExecEv = [] := by
    have := mount_filter_exec os "/sys" sysMp "--rbind"
    rwa [h2] at this
  rcases r2 with e | o2
  · simp [List.filter_append, f1, f2]
  rcases h3 : mount os "/dev" devMp "--rbind" with ⟨r3, evs3⟩
  have f3 : evs3.filter isExecEv = [] := by
    have := mount_filter_exec os "/dev" devMp "--rbind"
    rwa [h3] at this
  rcases r3 with e | o3 <;> simp [List.filter_append, f1, f2, f3]

lemma umountPhase_filter_exec (os : OS) (devptsMp devMp sysMp procMp : String) :
    (umountPhase os devptsMp devMp sysMp procMp).2.filter isExecEv = [] := by
  unfold umountPhase
  have f0 : ((if os.devptsExists then umount os devptsMp "-lf" else (.ok [], [])) :
      Except CErr (List Char) × List Event).2.filter isExecEv = [] := by
    cases os.devptsExists
    · simp
    · simpa using umount_filter_exec os devptsMp "-lf"
  rcases h0 : (if os.devptsExists then umount os devptsMp "-lf" else (.ok [], []) :
      Except CErr (List Char) × List Event) with ⟨r0, evs0⟩
  rw [h0] at f0
  rcases r0 with e | o0
  · simpa using f0
  rcases h1 : umount os devMp "-lf" with ⟨r1, evs1⟩
  have f1 : evs1.filter isExecEv = [] := by
    have := umount_filter_exec os devMp "-lf"
    rwa [h1] at this
  rcases r1 with e | o1
  · simp [List.filter_append, f0, f1]
  rcases h2 : umount os sysMp "-lf" with ⟨r2, evs2⟩
  have f2 : evs2.filter isExecEv = [] := by
    have := umount_filter_exec os sysMp "-lf"
    rwa [h2] at this
  rcases r2 with e | o2
  · simp [List.filter_append, f0, f1, f2]
  rcases h3 : umount os procMp "-lf" with ⟨r3, evs3⟩
  have f3 : evs3.filter isExecEv = [] := by
    have := umount_filter_exec os procMp "-lf"
    rwa [h3] at this
  rcases r3 with e | o3 <;> simp [List.filter_append, f0, f1, f2, f3]

lemma umountPhase_ok (os : OS) (devptsMp devMp sysMp procMp : String)
    (h0 : os.devptsExists = true →
      (os.procFor (umountCmdStr "-lf" devptsMp) true).returncode = 0)
    (h1 : (os.procFor (umountCmdStr "-lf" devMp) true).returncode = 0)
    (h2 : (os.procFor (umountCmdStr "-lf" sysMp) true).returncode = 0)
    (h3 : (os.procFor (umountCmdStr "-lf" procMp) true).returncode = 0) :
    umountPhase os devptsMp devMp sysMp procMp =
      (.ok (), (if os.devptsExists then [.umountEv devptsMp "-lf"] else []) ++
        [.umountEv devMp "-lf", .umountEv sysMp "-lf", .umountEv procMp "-lf"]) := by
  unfold umountPhase
  cases hd : os.devptsExists
  · simp [umount_ok _ _ _ h1, umount_ok _ _ _ h2, umount_ok _ _ _ h3]
  · simp [umount_ok _ _ _ (h0 hd), umount_ok _ _ _ h1, umount_ok _ _ _ h2,
      umount_ok _ _ _ h3]

/-! ### Helper lemmas on `chrootedSystemCall` -/

lemma chrooted_mount_err (os : OS) (root cmd : String) (sh : Bool) (e : CErr)
    (evs : List Event)
    (hm : mountPhase os (pathJoin root "proc") (pathJoin root "sys") (pathJoin root "dev") =
      (.error e, evs)) :
    chrootedSystemCall os root cmd sh true = (.error e, evs) := by
  unfold chrootedSystemCall
  simp [hm]

lemma chrooted_trace_ok (os : OS) (root cmd : String) (sh : Bool) (evs : List Event)
    (hm : mountPhase os (pathJoin root "proc") (pathJoin root "sys") (pathJoin root "dev") =
      (.ok (), evs)) :
    (chrootedSystemCall os root cmd sh true).2 =
      (evs ++ [.execEv (chrootCmd root cmd) sh]) ++
        (umountPhase os (pathJoin (pathJoin root "dev") "pts") (pathJoin root "dev")
          (pathJoin root "sys") (pathJoin root "proc")).2 := by
  unfold chrootedSystemCall
  simp only [hm, if_true]
  cases hu : (umountPhase os (pathJoin (pathJoin root "dev") "pts") (pathJoin root "dev")
      (pathJoin root "sys") (pathJoin root "proc")).1 <;> simp [hu]

lemma chrooted_unmount_err (os : OS) (root cmd : String) (sh : Bool) (evs : List Event)
    (e : CErr)
    (hm : mountPhase os (pathJoin root "proc") (pathJoin root "sys") (pathJoin root "dev") =
      (.ok (), evs))
    (hu : (umountPhase os (pathJoin (pathJoin root "dev") "pts") (pathJoin root "dev")
      (pathJoin root "sys") (pathJoin root "proc")).1 = .error e) :
    (chrootedSystemCall os root cmd sh true).1 = .error e := by
  unfold chrootedSystemCall
  simp [hm, hu]

lemma chrooted_unmount_ok (os : OS) (root cmd : String) (sh : Bool) (evs : List Event)
    (u : Unit)
    (hm : mountPhase os (pathJoin root "proc") (pathJoin root "sys") (pathJoin root "dev") =
      (.ok (), evs))
    (hu : (umountPhase os (pathJoin (pathJoin root "dev") "pts") (pathJoin root "dev")
      (pathJoin root "sys") (pathJoin root "proc")).1 = .ok u) :
    (chrootedSystemCall os root cmd sh true).1 =
      systemCall (chrootCmd root cmd) sh (os.procFor (chrootCmd root cmd) sh) := by
  unfold chrootedSystemCall
  simp [hm, hu]

/-! ### Claim theorems -/

/-- Claim C7: the drain loop performs one `pollOutput` per readiness round and
checks the child's exit status after each round; exit is first reported at
round `exitRound`, the loop then terminates, and `systemCall` performs exactly
one additional drain pass (round `exitRound + 1`), so the final state is the
fold of `pollOutput` over rounds `0 .. exitRound + 1` and output arriving
concurrently with process exit is still collected. -/
theorem drain_checks_exit_and_does_one_extra_pass (cmd : String) (sh : Bool) (child : Child) :
    drainLoop child 0 (initState cmd sh) =
      (((List.range (child.exitRound + 1)).map child.data).foldl pollRound (initState cmd sh),
        child.exitRound + 1) ∧
    sysCallState cmd sh child =
      ((List.range (child.exitRound + 2)).map child.data).foldl pollRound (initState cmd sh) :=
  ⟨drainLoop_zero child (initState cmd sh), sysCallState_eq_fold cmd sh child⟩

/-- Claim C5: every complete stdout line is emitted to the debug-level log sink
(after the invocation header) and appended with its trailing newline to the
returned output, while every complete stderr line is emitted to the
warning-level log sink only — the returned output consists of exactly the
stdout lines, so stderr lines never appear in it. -/
theorem stdout_debug_and_returned_stderr_warning_only (cmd : String) (sh : Bool)
    (child : Child) :
    (sysCallState cmd sh child).logDebug = sysCallHeader cmd sh :: stdoutLines child ∧
    (sysCallState cmd sh child).out = (stdoutLines child).map (fun l => l ++ ['\n']) ∧
    (sysCallState cmd sh child).logWarn = stderrLines child := by
  rw [sysCallState_eq]
  exact ⟨rfl, rfl, rfl⟩

/-- Claim C3: a child exit code of 0 makes `systemCall` return the captured
output without error, and any non-zero exit code makes it raise a
process-failure error carrying exactly that exit code, the original command
and the output collected so far. -/
theorem exit_code_propagation (cmd : String) (sh : Bool) (child : Child) :
    (child.returncode = 0 → systemCall cmd sh child = .ok (capturedOutput cmd sh child)) ∧
    (child.returncode ≠ 0 → systemCall cmd sh child =
      .error (.processFailure child.returncode cmd (capturedOutput cmd sh child))) :=
  ⟨systemCall_ok cmd sh child, systemCall_fail cmd sh child⟩

/-- Witness for C3: a zero-exit child returns its captured stdout, and a child
exiting with code 2 raises the process failure with code 2, the command, and
the collected output. -/
theorem exit_code_propagation_witness :
    systemCall "printf" true twoLineChild = .ok ['a', 'b', '\n', 'c', '\n'] ∧
    systemCall "badcmd" true failChildWithOutput =
      .error (.processFailure 2 "badcmd" ['h', 'i', '\n']) := by
  constructor
  · have h := (exit_code_propagation "printf" true twoLineChild).1 (by decide)
    rw [h]; rfl
  · have h := (exit_code_propagation "badcmd" true failChildWithOutput).2 (by decide)
    rw [h]; rfl

/-- Claim C4: for a child writing newline-terminated lines followed by an
optional unterminated tail, the returned output is the concatenation of
exactly those lines, each with its trailing newline; the unterminated tail is
neither logged nor included in the returned output — it stays in the buffer. -/
theorem captured_output_complete_modulo_trailing_newline (cmd : String) (sh : Bool)
    (child : Child) (lines : List (List Char)) (leftover : List Char)
    (hl : ∀ l ∈ lines, '\n' ∉ l) (ht : '\n' ∉ leftover)
    (hdata : stdoutData child = (lines.map (fun l => l ++ ['\n'])).flatten ++ leftover) :
    (sysCallState cmd sh child).out = lines.map (fun l => l ++ ['\n']) ∧
    capturedOutput cmd sh child = (lines.map (fun l => l ++ ['\n'])).flatten ∧
    (sysCallState cmd sh child).logDebug = sysCallHeader cmd sh :: lines ∧
    (sysCallState cmd sh child).outBuf = leftover := by
  have hfl : flushLines (stdoutData child) = (lines, leftover) := by
    rw [hdata]; exact flush_terminated lines leftover hl ht
  have hsl : stdoutLines child = lines := by simp [stdoutLines, hfl]
  have hout := sysCallState_eq cmd sh child
  refine ⟨?_, ?_, ?_, ?_⟩
  · rw [hout]; simp [hsl]
  · simp [capturedOutput, hout, hsl]
  · rw [hout]; simp [hsl]
  · rw [hout]; simp [hfl]

/-- Witness for C4: `twoLineChild` writes the two terminated lines `ab`, `c`
and the unterminated tail `xy`; the output is exactly the two lines with
newlines and the tail stays buffered, unlogged. -/
theorem captured_output_complete_witness :
    (∀ l ∈ [['a', 'b'], ['c']], '\n' ∉ l) ∧ '\n' ∉ ['x', 'y'] ∧
    stdoutData twoLineChild =
      (([['a', 'b'], ['c']]).map (fun l => l ++ ['\n'])).flatten ++ ['x', 'y'] ∧
    (sysCallState "cmd" true twoLineChild).out =
      ([['a', 'b'], ['c']]).map (fun l => l ++ ['\n']) ∧
    capturedOutput "cmd" true twoLineChild =
      (([['a', 'b'], ['c']]).map (fun l => l ++ ['\n'])).flatten ∧
    (sysCallState "cmd" true twoLineChild).logDebug =
      sysCallHeader "cmd" true :: [['a', 'b'], ['c']] ∧
    (sysCallState "cmd" true twoLineChild).outBuf = ['x', 'y'] := by
  refine ⟨by decide, by decide, by decide, ?_⟩
  exact captured_output_complete_modulo_trailing_newline "cmd" true twoLineChild
    [['a', 'b'], ['c']] ['x', 'y'] (by decide) (by decide) (by decide)

/-- Claim C10: buffered output is split only on the newline character;
carriage returns are never stripped (the source's `removeChars` naming CR LF
is never applied), so CRLF-terminated lines keep their trailing CR both in
the log records and in the returned output. -/
theorem crlf_carriage_returns_retained (cmd : String) (sh : Bool) (child : Child)
    (lines elines : List (List Char))
    (hl : ∀ l ∈ lines, '\n' ∉ l) (he : ∀ l ∈ elines, '\n' ∉ l)
    (hdata : stdoutData child = (lines.map (fun l => l ++ ['\r', '\n'])).flatten)
    (hedata : stderrData child = (elines.map (fun l => l ++ ['\r', '\n'])).flatten) :
    (sysCallState cmd sh child).out = lines.map (fun l => l ++ ['\r', '\n']) ∧
    (sysCallState cmd sh child).logDebug =
      sysCallHeader cmd sh :: lines.map (fun l => l ++ ['\r']) ∧
    (sysCallState cmd sh child).logWarn = elines.map (fun l => l ++ ['\r']) := by
  have key : ∀ (ls : List (List Char)), (∀ l ∈ ls, '\n' ∉ l) →
      flushLines ((ls.map (fun l => l ++ ['\r', '\n'])).flatten) =
        (ls.map (fun l => l ++ ['\r']), []) := by
    intro ls hls
    have h1 : ∀ l ∈ ls.map (fun l => l ++ ['\r']), '\n' ∉ l := by
      intro l hm
      rcases List.mem_map.mp hm with ⟨x, hx, rfl⟩
      simp only [List.mem_append, List.mem_singleton, not_or]
      exact ⟨hls x hx, by decide⟩
    have hmap : (ls.map (fun l => l ++ ['\r'])).map (fun l => l ++ ['\n']) =
        ls.map (fun l => l ++ ['\r', '\n']) := by
      rw [List.map_map]
      exact List.map_congr_left fun x _ => by simp [Function.comp, List.append_assoc]
    have h2 := flush_terminated (ls.map (fun l => l ++ ['\r'])) [] h1 (by simp)
    rw [hmap] at h2
    simpa using h2
  have hfl := key lines hl
  have hfe := key elines he
  have hsl : stdoutLines child = lines.map (fun l => l ++ ['\r']) := by
    simp [stdoutLines, hdata, hfl]
  have hse : stderrLines child = elines.map (fun l => l ++ ['\r']) := by
    simp [stderrLines, hedata, hfe]
  have hout := sysCallState_eq cmd sh child
  refine ⟨?_, ?_, ?_⟩
  · rw [hout]; simp [hsl, List.map_map, Function.comp, List.append_assoc]
  · rw [hout]; simp [hsl]
  · rw [hout]; simp [hse]

/-- Witness for C10: `crlfChild` emits CRLF-terminated lines `a` (stdout) and
`b` (stderr); the logged records are `a CR` and `b CR` and the output keeps
`a CR LF` — the CR survives everywhere. -/
theorem crlf_retained_witness :
    stdoutData crlfChild = (([['a']]).map (fun l => l ++ ['\r', '\n'])).flatten ∧
    (sysCallState "c" true crlfChild).out = ([['a']]).map (fun l => l ++ ['\r', '\n']) ∧
    (sysCallState "c" true crlfChild).logDebug =
      sysCallHeader "c" true :: ([['a']]).map (fun l => l ++ ['\r']) ∧
    (sysCallState "c" true crlfChild).logWarn = ([['b']]).map (fun l => l ++ ['\r']) := by
  refine ⟨by decide, ?_⟩
  exact crlf_carriage_returns_retained "c" true crlfChild [['a']] [['b']]
    (by decide) (by decide) (by decide) (by decide)

/-- Claim C6: once mounting completed, teardown runs regardless of whether the
inner command succeeded or failed, in the fixed order `<root>/dev/pts` (only
if that path exists), `<root>/dev`, `<root>/sys`, `<root>/proc`, each with the
lazy/force flags `-lf` — the strict reverse of the mount order; the inner
result (success or process failure) is then reported unchanged. -/
theorem teardown_reverse_order_unconditional (os : OS) (root cmd : String) (sh : Bool)
    (mevs : List Event)
    (hm : mountPhase os (pathJoin root "proc") (pathJoin root "sys") (pathJoin root "dev") =
      (.ok (), mevs))
    (h0 : os.devptsExists = true →
      (os.procFor (umountCmdStr "-lf" (pathJoin (pathJoin root "dev") "pts"))
        true).returncode = 0)
    (h1 : (os.procFor (umountCmdStr "-lf" (pathJoin root "dev")) true).returncode = 0)
    (h2 : (os.procFor (umountCmdStr "-lf" (pathJoin root "sys")) true).returncode = 0)
    (h3 : (os.procFor (umountCmdStr "-lf" (pathJoin root "proc")) true).returncode = 0) :
    chrootedSystemCall os root cmd sh true =
      (systemCall (chrootCmd root cmd) sh (os.procFor (chrootCmd root cmd) sh),
        (mevs ++ [.execEv (chrootCmd root cmd) sh]) ++
          ((if os.devptsExists then
              [.umountEv (pathJoin (pathJoin root "dev") "pts") "-lf"] else []) ++
            [.umountEv (pathJoin root "dev") "-lf", .umountEv (pathJoin root "sys") "-lf",
              .umountEv (pathJoin root "proc") "-lf"])) := by
  have hu := umountPhase_ok os (pathJoin (pathJoin root "dev") "pts") (pathJoin root "dev")
    (pathJoin root "sys") (pathJoin root "proc") h0 h1 h2 h3
  have t1 := chrooted_trace_ok os root cmd sh mevs hm
  have r1 := chrooted_unmount_ok os root cmd sh mevs () hm (by rw [hu])
  have hsplit : chrootedSystemCall os root cmd sh true =
      ((chrootedSystemCall os root cmd sh true).1,
        (chrootedSystemCall os root cmd sh true).2) := rfl
  rw [hsplit, r1, t1, hu]

/-- Witness for C6: on `osInnerFails` all mounts and unmounts succeed, the
chrooted command fails with exit code 5, and the trace still ends with the
four unmounts in reverse order after the execution event. -/
theorem teardown_reverse_order_witness :
    mountPhase osInnerFails (pathJoin "/r" "proc") (pathJoin "/r" "sys") (pathJoin "/r" "dev") =
      (.ok (), [.ensureDir "/r/proc", .mountEv "proc" "/r/proc" "-t proc",
        .ensureDir "/r/sys", .mountEv "/sys" "/r/sys" "--rbind",
        .ensureDir "/r/dev", .mountEv "/dev" "/r/dev" "--rbind"]) ∧
    chrootedSystemCall osInnerFails "/r" "do" true true =
      (systemCall (chrootCmd "/r" "do") true (osInnerFails.procFor (chrootCmd "/r" "do") true),
        ([.ensureDir "/r/proc", .mountEv "proc" "/r/proc" "-t proc",
          .ensureDir "/r/sys", .mountEv "/sys" "/r/sys" "--rbind",
          .ensureDir "/r/dev", .mountEv "/dev" "/r/dev" "--rbind"] ++
            [.execEv (chrootCmd "/r" "do") true]) ++
          ((if osInnerFails.devptsExists then
              [.umountEv (pathJoin (pathJoin "/r" "dev") "pts") "-lf"] else []) ++
            [.umountEv (pathJoin "/r" "dev") "-lf", .umountEv (pathJoin "/r" "sys") "-lf",
              .umountEv (pathJoin "/r" "proc") "-lf"])) := by
  refine ⟨rfl, ?_⟩
  exact teardown_reverse_order_unconditional osInnerFails "/r" "do" true
    [.ensureDir "/r/proc", .mountEv "proc" "/r/proc" "-t proc",
      .ensureDir "/r/sys", .mountEv "/sys" "/r/sys" "--rbind",
      .ensureDir "/r/dev", .mountEv "/dev" "/r/dev" "--rbind"]
    rfl (fun _ => by decide) (by decide) (by decide) (by decide)

/-- Counterexample to C1 as stated: on `osSysMountFails` the first mount
(`proc`) completes, the second (`/sys`) fails, and the failure is reported
with no unmount event whatsoever — the completed first mount is NOT rolled
back during cleanup. -/
theorem mount_rollback_counterexample :
    chrootedSystemCall osSysMountFails "/r" "do" true true =
      (.error (.processFailure 1 "mount --rbind /sys /r/sys" []),
        [.ensureDir "/r/proc", .mountEv "proc" "/r/proc" "-t proc", .ensureDir "/r/sys"]) ∧
    (chrootedSystemCall osSysMountFails "/r" "do" true true).2.filter isUmountEv = [] :=
  ⟨rfl, rfl⟩

/-- Claim C1 amended: if one of the three bind-mount steps fails, the mount
failure is reported to the caller directly and no unmount is performed at
all — mounts completed before the failing step are not rolled back (the
mounts precede the `try` block, so the cleanup in `finally` never runs). -/
theorem mount_failure_no_rollback (os : OS) (root cmd : String) (sh : Bool) (e : CErr)
    (evs : List Event)
    (hm : mountPhase os (pathJoin root "proc") (pathJoin root "sys") (pathJoin root "dev") =
      (.error e, evs)) :
    chrootedSystemCall os root cmd sh true = (.error e, evs) ∧
    evs.filter isUmountEv = [] := by
  refine ⟨chrooted_mount_err os root cmd sh e evs hm, ?_⟩
  have h := mountPhase_filter_umount os (pathJoin root "proc") (pathJoin root "sys")
    (pathJoin root "dev")
  rwa [hm] at h

/-- Witness for the amended C1 at the concrete failing scenario. -/
theorem mount_failure_no_rollback_witness :
    mountPhase osSysMountFails (pathJoin "/r" "proc") (pathJoin "/r" "sys")
      (pathJoin "/r" "dev") =
      (.error (.processFailure 1 "mount --rbind /sys /r/sys" []),
        [.ensureDir "/r/proc", .mountEv "proc" "/r/proc" "-t proc", .ensureDir "/r/sys"]) ∧
    (chrootedSystemCall osSysMountFails "/r" "do" true true =
        (.error (.processFailure 1 "mount --rbind /sys /r/sys" []),
          [.ensureDir "/r/proc", .mountEv "proc" "/r/proc" "-t proc", .ensureDir "/r/sys"]) ∧
      ([Event.ensureDir "/r/proc", .mountEv "proc" "/r/proc" "-t proc",
        .ensureDir "/r/sys"]).filter isUmountEv = []) :=
  ⟨rfl, mount_failure_no_rollback osSysMountFails "/r" "do" true
    (.processFailure 1 "mount --rbind /sys /r/sys" [])
    [.ensureDir "/r/proc", .mountEv "proc" "/r/proc" "-t proc", .ensureDir "/r/sys"] rfl⟩

/-- Counterexample to C2 as stated: on `osUmountDevptsFails` the inner chrooted
command fails with exit code 3 (a primary error exists), the devpts unmount
then fails with exit code 2, and the caller receives the unmount error — the
primary process failure is replaced, and the remaining unmounts are skipped. -/
theorem unmount_error_masking_counterexample :
    systemCall (chrootCmd "/r" "do") true
        (osUmountDevptsFails.procFor (chrootCmd "/r" "do") true) =
      .error (.processFailure 3 "chroot /r do" []) ∧
    (chrootedSystemCall osUmountDevptsFails "/r" "do" true true).1 =
      .error (.processFailure 2 "umount -lf /r/dev/pts" []) :=
  ⟨rfl, rfl⟩

/-- Claim C2 amended: an error raised during the unmount phase always replaces
the pending result or error of the inner execution (Python `finally`
semantics); the inner result — success or failure — reaches the caller only
when the whole unmount phase completes without error. -/
theorem unmount_error_replaces_primary (os : OS) (root cmd : String) (sh : Bool)
    (mevs : List Event)
    (hm : mountPhase os (pathJoin root "proc") (pathJoin root "sys") (pathJoin root "dev") =
      (.ok (), mevs)) :
    (∀ e : CErr,
      (umountPhase os (pathJoin (pathJoin root "dev") "pts") (pathJoin root "dev")
        (pathJoin root "sys") (pathJoin root "proc")).1 = .error e →
      (chrootedSystemCall os root cmd sh true).1 = .error e) ∧
    (∀ u : Unit,
      (umountPhase os (pathJoin (pathJoin root "dev") "pts") (pathJoin root "dev")
        (pathJoin root "sys") (pathJoin root "proc")).1 = .ok u →
      (chrootedSystemCall os root cmd sh true).1 =
        systemCall (chrootCmd root cmd) sh (os.procFor (chrootCmd root cmd) sh)) :=
  ⟨fun e hu => chrooted_unmount_err os root cmd sh mevs e hm hu,
   fun u hu => chrooted_unmount_ok os root cmd sh mevs u hm hu⟩

/-- Witness for the amended C2 at the concrete masking scenario. -/
theorem unmount_error_replaces_primary_witness :
    mountPhase osUmountDevptsFails (pathJoin "/r" "proc") (pathJoin "/r" "sys")
      (pathJoin "/r" "dev") =
      (.ok (), [.ensureDir "/r/proc", .mountEv "proc" "/r/proc" "-t proc",
        .ensureDir "/r/sys", .mountEv "/sys" "/r/sys" "--rbind",
        .ensureDir "/r/dev", .mountEv "/dev" "/r/dev" "--rbind"]) ∧
    (umountPhase osUmountDevptsFails (pathJoin (pathJoin "/r" "dev") "pts")
      (pathJoin "/r" "dev") (pathJoin "/r" "sys") (pathJoin "/r" "proc")).1 =
      .error (.processFailure 2 "umount -lf /r/dev/pts" []) ∧
    (chrootedSystemCall osUmountDevptsFails "/r" "do" true true).1 =
      .error (.processFailure 2 "umount -lf /r/dev/pts" []) := by
  refine ⟨rfl, rfl, ?_⟩
  exact (unmount_error_replaces_primary osUmountDevptsFails "/r" "do" true
    [.ensureDir "/r/proc", .mountEv "proc" "/r/proc" "-t proc",
      .ensureDir "/r/sys", .mountEv "/sys" "/r/sys" "--rbind",
      .ensureDir "/r/dev", .mountEv "/dev" "/r/dev" "--rbind"] rfl).1
    (.processFailure 2 "umount -lf /r/dev/pts" []) rfl

/-- Counterexample to C8 as stated: the `sh` flag is forwarded, so with
`sh = false` the composed `chroot` string is executed WITHOUT shell
interpretation — the chrooted case does not always run with shell
interpretation. -/
theorem chroot_shell_flag_counterexample :
    chrootedSystemCall osAllOk "/r" "do" false false =
      (.ok [], [.execEv (chrootCmd "/r" "do") false]) ∧
    chrootCmd "/r" "do" = "chroot /r do" :=
  ⟨rfl, rfl⟩

/-- Claim C8 amended: the command passed to the Stream Multiplexer is exactly
the original command prefixed with `chroot <root> `, composed as a single
string; it runs with shell interpretation exactly when the caller's `sh`
flag (default true) is set, because the flag is forwarded unchanged. -/
theorem chroot_command_composition (os : OS) (root cmd : String) (sh mfs : Bool)
    (hm : mfs = true →
      (mountPhase os (pathJoin root "proc") (pathJoin root "sys")
        (pathJoin root "dev")).1 = .ok ()) :
    (chrootedSystemCall os root cmd sh mfs).2.filter isExecEv =
      [.execEv ("chroot " ++ root ++ " " ++ cmd) sh] := by
  cases mfs
  · unfold chrootedSystemCall
    simp [chrootCmd, isExecEv]
  · rcases hmp : mountPhase os (pathJoin root "proc") (pathJoin root "sys")
        (pathJoin root "dev") with ⟨r, evs⟩
    have hr : r = .ok () := by
      have h := hm rfl
      rw [hmp] at h
      cases r with
      | error e => exact absurd h (by simp)
      | ok u => cases u; rfl
    subst hr
    have t := chrooted_trace_ok os root cmd sh evs hmp
    rw [t]
    have fm : evs.filter isExecEv = [] := by
      have h := mountPhase_filter_exec os (pathJoin root "proc") (pathJoin root "sys")
        (pathJoin root "dev")
      rwa [hmp] at h
    have fu := umountPhase_filter_exec os (pathJoin (pathJoin root "dev") "pts")
      (pathJoin root "dev") (pathJoin root "sys") (pathJoin root "proc")
    simp [List.filter_append, fm, fu, isExecEv, chrootCmd]

/-- Witness for the amended C8: `sh = false`, no pseudo-fs mounting; the single
execution event carries exactly the composed string and the forwarded flag. -/
theorem chroot_command_composition_witness :
    (chrootedSystemCall osAllOk "/r" "do" false false).2.filter isExecEv =
      [.execEv ("chroot " ++ "/r" ++ " " ++ "do") false] :=
  chroot_command_composition osAllOk "/r" "do" false false (fun h => nomatch h)

/-- Claim C9: `ensureDirectory` is idempotent — when a first call succeeds with
resulting filesystem `fs2`, a second call on the same path returns `fs2`
unchanged and raises no error. -/
theorem ensureDirectory_idempotent (fs : FS) (p : List String) (fs2 : FS)
    (h : ensureDirectory fs p = .ok fs2) : ensureDirectory fs2 p = .ok fs2 := by
  unfold ensureDirectory at h ⊢
  by_cases hin : p ∈ fs.dirs
  · rw [if_neg (not_not_intro hin)] at h
    injection h with h2
    subst h2
    rw [if_neg (not_not_intro hin)]
  · rw [if_pos hin] at h
    unfold makedirs at h
    rw [if_neg hin] at h
    injection h with h2
    subst h2
    by_cases hp : p = []
    · subst hp
      simp [makedirs, parentChain, hin]
    · have hlen : 0 < p.length := List.length_pos.mpr hp
      have htake : p.take (p.length - 1 + 1) = p := by
        have hl : p.length - 1 + 1 = p.length := by omega
        rw [hl, List.take_length]
      have hchain : p ∈ parentChain p := by
        unfold parentChain
        rw [List.mem_map]
        exact ⟨p.length - 1, List.mem_range.mpr (by omega), htake⟩
      have hmem : p ∈ fs.dirs ++ (parentChain p).filter (fun q => decide (q ∉ fs.dirs)) := by
        rw [List.mem_append, List.mem_filter]
        exact Or.inr ⟨hchain, by simpa using hin⟩
      rw [if_neg (not_not_intro hmem)]

/-- Witness for C9: ensuring `a/b` on an empty filesystem creates `a` and
`a/b`; ensuring it again returns the same filesystem without error. -/
theorem ensureDirectory_idempotent_witness :
    ensureDirectory ⟨[]⟩ ["a", "b"] = .ok ⟨[["a"], ["a", "b"]]⟩ ∧
    ensureDirectory ⟨[["a"], ["a", "b"]]⟩ ["a", "b"] = .ok ⟨[["a"], ["a", "b"]]⟩ :=
  ⟨rfl, ensureDirectory_idempotent ⟨[]⟩ ["a", "b"] ⟨[["a"], ["a", "b"]]⟩ rfl⟩

end Conduct
